import Mathlib

/-!
Shallow embedding of the dinq-message real-time messaging core.

The relational store (PostgreSQL tables `conversations`, `conversation_members`,
`messages`, `user_relationships` from `sql/init.sql`) is modelled as lists of
records; uuids are modelled as `Nat`, timestamps as `Nat` (seconds).  The
service methods of `MessageService` (message_service), `ConversationService`
(conversation_service.go) and the websocket `Hub` (handler/websocket.go) are
translated into pure functions that thread the database state explicitly and
return `Except`-style results.  Fresh row ids (which PostgreSQL draws from
`gen_random_uuid()`) and the clock (`NOW()`) are passed as parameters.
-/

namespace DinqMessage

abbrev UserId := Nat
abbrev ConvId := Nat
abbrev MsgId := Nat

/-- Row of the `conversations` table (model/conversation.go `Conversation`). -/
structure Conversation where
  id : ConvId
  conversation_type : String
  group_name : Option String := none
  created_at : Nat := 0
  updated_at : Nat := 0
  last_message_at : Option Nat := none
  last_message_id : Option MsgId := none
deriving Repr, DecidableEq

/-- Row of the `conversation_members` table (model/conversation.go
`ConversationMember`).  The schema enforces `UNIQUE(conversation_id, user_id)`. -/
structure ConversationMember where
  conversation_id : ConvId
  user_id : UserId
  role : String := "member"
  is_muted : Bool := false
  is_hidden : Bool := false
  joined_at : Nat := 0
  left_at : Option Nat := none
  unread_count : Nat := 0
  last_read_message_id : Option MsgId := none
  last_read_at : Option Nat := none
deriving Repr, DecidableEq

/-- Row of the `messages` table (model/message.go `Message`).  Of the jsonb
`metadata` column only the `file_size` number is relevant to the service logic,
so the column is modelled by that optional number (bytes). -/
structure Message where
  id : MsgId
  conversation_id : ConvId
  sender_id : UserId
  message_type : String
  content : Option String := none
  file_size : Option Nat := none
  status : String := "sent"
  reply_to_message_id : Option MsgId := none
  is_recalled : Bool := false
  recalled_at : Option Nat := none
  created_at : Nat := 0
deriving Repr, DecidableEq

/-- Row of the `user_relationships` table. -/
structure UserRelationship where
  user_id : UserId
  target_user_id : UserId
  relationship_type : String
deriving Repr, DecidableEq

/-- The relational store. -/
structure DB where
  conversations : List Conversation := []
  members : List ConversationMember := []
  messages : List Message := []
  relationships : List UserRelationship := []
deriving Repr, DecidableEq

/-- Ambient service state: the `enable_first_message_limit` system setting, the
hub's `IsUserInConversation` viewing check, and the configured video limit. -/
structure Env where
  firstMessageLimitEnabled : Bool
  viewing : UserId → ConvId → Bool
  maxVideoSizeMB : Nat

/-! ### Shared query helpers of MessageService -/

/-- `isConversationMember`: a member row for the user with `left_at IS NULL`. -/
def isConversationMember (db : DB) (conversationID : ConvId) (userID : UserId) : Bool :=
  db.members.any fun m =>
    m.conversation_id == conversationID && m.user_id == userID && m.left_at == none

/-- `isBlocked`: a `(receiver, sender, blocked)` row in `user_relationships`. -/
def isBlocked (db : DB) (senderID receiverID : UserId) : Bool :=
  db.relationships.any fun r =>
    r.user_id == receiverID && r.target_user_id == senderID && r.relationship_type == "blocked"

/-- The `m1`/`m2` join condition of `getOrCreatePrivateConversation`: some
member row (left or not) ties the user to the conversation. -/
def hasMemberRow (db : DB) (conversationID : ConvId) (userID : UserId) : Bool :=
  db.members.any fun m => m.conversation_id == conversationID && m.user_id == userID

/-- The correlated subquery `COUNT(*) ... WHERE conversation_id = c.id AND left_at IS NULL`. -/
def activeMemberCount (db : DB) (conversationID : ConvId) : Nat :=
  (db.members.filter fun m => m.conversation_id == conversationID && m.left_at == none).length

/-! ### CheckCanSend (message service, first-message anti-spam) -/

/-- `MessageService.CheckCanSend`. -/
def CheckCanSend (env : Env) (db : DB) (userID : UserId) (conversationID : ConvId) : Bool :=
  if !env.firstMessageLimitEnabled then true
  else
    match db.conversations.find? (fun c => c.id == conversationID) with
    | none => true
    | some conversation =>
      if conversation.conversation_type != "private" then true
      else
        let userMessageCount :=
          (db.messages.filter fun m =>
            m.conversation_id == conversationID && m.sender_id == userID).length
        if userMessageCount == 0 then true
        else
          let otherUserMessageCount :=
            (db.messages.filter fun m =>
              m.conversation_id == conversationID && m.sender_id != userID).length
          decide (otherUserMessageCount > 0)

/-! ### RecallMessage -/

inductive RecallErr
  | notFound | notOwn | alreadyRecalled | windowExpired
deriving Repr, DecidableEq

/-- `MessageService.RecallMessage`.  The elapsed time is the database-side
`EXTRACT(EPOCH FROM (NOW() - created_at))` for the same message row, modelled
as `now - created_at` in seconds. -/
def RecallMessage (db : DB) (userID : UserId) (messageID : MsgId) (now : Nat) :
    DB × Except RecallErr Unit :=
  match db.messages.find? (fun m => m.id == messageID) with
  | none => (db, .error .notFound)
  | some message =>
    if message.sender_id != userID then (db, .error .notOwn)
    else if message.is_recalled then (db, .error .alreadyRecalled)
    else
      let elapsedSeconds : Int := (now : Int) - (message.created_at : Int)
      if elapsedSeconds > 10 then (db, .error .windowExpired)
      else
        ({ db with
            messages := db.messages.map fun m =>
              if m.id == messageID then { m with is_recalled := true, recalled_at := some now }
              else m },
         .ok ())

/-! ### MarkAsRead -/

inductive Event
  | unreadCountUpdate (userID : UserId) (conversationID : ConvId) (count : Nat)
deriving Repr, DecidableEq

inductive MarkErr
  | messageNotFound
deriving Repr, DecidableEq

/-- The guard of the conditional UPDATE in `MarkAsRead`:
`last_read_message_id IS NULL OR NOT EXISTS (SELECT 1 FROM messages m WHERE
m.id = cm.last_read_message_id AND m.created_at > target.created_at)`. -/
def readCondition (db : DB) (m : ConversationMember) (targetCreatedAt : Nat) : Bool :=
  m.last_read_message_id == none ||
  !(db.messages.any fun pm =>
      some pm.id == m.last_read_message_id && pm.created_at > targetCreatedAt)

/-- `MessageService.MarkAsRead`.  Returns the new store and the
`unread_count_update` pushes emitted (one, iff `RowsAffected > 0`). -/
def MarkAsRead (db : DB) (userID : UserId) (conversationID : ConvId) (messageID : MsgId)
    (now : Nat) : Except MarkErr (DB × List Event) :=
  match db.messages.find? (fun m => m.id == messageID) with
  | none => .error .messageNotFound
  | some targetMessage =>
    let rowsAffected :=
      (db.members.filter fun m =>
        m.conversation_id == conversationID && m.user_id == userID &&
          readCondition db m targetMessage.created_at).length
    let members2 := db.members.map fun m =>
      if m.conversation_id == conversationID && m.user_id == userID &&
          readCondition db m targetMessage.created_at then
        { m with unread_count := 0, last_read_message_id := some messageID,
                 last_read_at := some now }
      else m
    let events :=
      if rowsAffected > 0 then [Event.unreadCountUpdate userID conversationID 0] else []
    .ok ({ db with members := members2 }, events)

/-! ### Private conversation resolution -/

inductive ConvErr
  | selfSend
deriving Repr, DecidableEq

/-- The WHERE/JOIN predicate of the lookup in `getOrCreatePrivateConversation`:
a `private` conversation, member rows (joins `m1`, `m2`) for both users, and an
active-member count of exactly 2. -/
def privateQuery (db : DB) (user1ID user2ID : UserId) (c : Conversation) : Bool :=
  c.conversation_type == "private" &&
  hasMemberRow db c.id user1ID &&
  hasMemberRow db c.id user2ID &&
  activeMemberCount db c.id == 2

/-- The SELECT of `getOrCreatePrivateConversation` (`First` over the join). -/
def findPrivateConversation (db : DB) (user1ID user2ID : UserId) : Option Conversation :=
  db.conversations.find? fun c => privateQuery db user1ID user2ID c

/-- `MessageService.createPrivateConversation`: one transaction inserting the
conversation and the two `member` rows. -/
def createPrivateConversation (db : DB) (user1ID user2ID : UserId) (newConvId : ConvId)
    (now : Nat) : DB × Except ConvErr (ConvId × Bool) :=
  let conversation : Conversation :=
    { id := newConvId, conversation_type := "private", created_at := now, updated_at := now }
  let rows := [user1ID, user2ID].map fun uid =>
    ({ conversation_id := newConvId, user_id := uid, role := "member",
       joined_at := now } : ConversationMember)
  ({ db with conversations := db.conversations ++ [conversation],
             members := db.members ++ rows },
   .ok (newConvId, true))

/-- `MessageService.getOrCreatePrivateConversation`.  The repeated query after
taking the distributed lock is kept; in this sequential model it sees the same
state. -/
def getOrCreatePrivateConversation (db : DB) (user1ID user2ID : UserId) (newConvId : ConvId)
    (now : Nat) : DB × Except ConvErr (ConvId × Bool) :=
  if user1ID == user2ID then (db, .error .selfSend)
  else
    match findPrivateConversation db user1ID user2ID with
    | some conversation => (db, .ok (conversation.id, false))
    | none =>
      match findPrivateConversation db user1ID user2ID with
      | some conversation => (db, .ok (conversation.id, false))
      | none => createPrivateConversation db user1ID user2ID newConvId now

/-! ### SendMessage -/

/-- The wire request (`SendMessageRequest`).  `uuid.Nil` in `conversation_id`
is modelled as `none`; `metadata["file_size"]` as `file_size`. -/
structure SendMessageRequest where
  conversation_id : Option ConvId := none
  receiver_id : Option UserId := none
  message_type : String
  content : Option String := none
  file_size : Option Nat := none
  reply_to_message_id : Option MsgId := none

inductive SendErr
  | contentRequired
  | getConversation (e : ConvErr)
  | conversationRequired
  | notMember
  | blocked
  | videoTooLarge
  | firstMessageLimit
deriving Repr, DecidableEq

/-- Step 0 guard: `req.MessageType == "text" && (req.Content == nil || *req.Content == "")`. -/
def contentMissing (req : SendMessageRequest) : Bool :=
  req.content == none || req.content == some ""

/-- Step 1: resolve or auto-create a private conversation when no
`conversation_id` was supplied but a `receiver_id` was. -/
def resolveConversation (db : DB) (senderID : UserId) (req : SendMessageRequest)
    (newConvId : ConvId) (now : Nat) : DB × Except ConvErr (Option ConvId × Bool) :=
  match req.conversation_id with
  | some cid => (db, .ok (some cid, false))
  | none =>
    match req.receiver_id with
    | some receiverID =>
      match getOrCreatePrivateConversation db senderID receiverID newConvId now with
      | (db1, .ok (cid, justCreated)) => (db1, .ok (some cid, justCreated))
      | (db1, .error e) => (db1, .error e)
    | none => (db, .ok (none, false))

/-- Step 3 guard: the block check runs only when a `receiver_id` is present. -/
def blockCheck (db : DB) (senderID : UserId) (receiverOpt : Option UserId) : Bool :=
  match receiverOpt with
  | some receiverID => isBlocked db senderID receiverID
  | none => false

/-- Step 4 guard: `fileSize / (1024*1024) > float64(maxVideoSizeMB)` on the
`file_size` metadata of a video message (exact over the integers). -/
def videoTooLarge (env : Env) (req : SendMessageRequest) : Bool :=
  req.message_type == "video" &&
    (match req.file_size with
     | some fileSize => decide (fileSize > env.maxVideoSizeMB * 1048576)
     | none => false)

/-- Step 9: the preview text (`lastMessageText`) derived after the transaction. -/
def derivePreview (messageType : String) (content : Option String) : Option String :=
  if messageType == "text" then
    match content with
    | some text =>
      let runes := text.toList
      if runes.length > 50 then some (String.mk (runes.take 50) ++ "...") else some text
    | none => none
  else if messageType == "image" then some "[图片]"
  else if messageType == "video" then some "[视频]"
  else if messageType == "emoji" then some "[表情]"
  else none

/-- Step 8.3: the member-row UPDATE loop of the send transaction, one
conditional UPDATE per row of the pre-transaction member snapshot.  Clears
`is_hidden` always and increments `unread_count` unless the member was
recorded as viewing the conversation in the snapshot. -/
def applyMemberUpdates (env : Env) (conversationID : ConvId)
    (queried ms : List ConversationMember) : List ConversationMember :=
  queried.foldl
    (fun acc q =>
      acc.map fun m =>
        if m.conversation_id == conversationID && m.user_id == q.user_id then
          { m with is_hidden := false,
                   unread_count :=
                     if env.viewing q.user_id conversationID then m.unread_count
                     else m.unread_count + 1 }
        else m)
    ms

/-- Steps 6-9 of `SendMessage`: build the message and run the transaction
(insert message, bump the conversation's last-message columns, run the member
UPDATE loop), then derive the preview. -/
def commitSend (env : Env) (db1 : DB) (senderID : UserId) (req : SendMessageRequest)
    (conversationID : ConvId) (newMsgId : MsgId) (now : Nat) :
    DB × Except SendErr (Message × Option String) :=
  let queried := db1.members.filter fun m =>
    m.conversation_id == conversationID && m.user_id != senderID
  let message : Message :=
    { id := newMsgId, conversation_id := conversationID, sender_id := senderID,
      message_type := req.message_type, content := req.content,
      file_size := req.file_size, status := "sent",
      reply_to_message_id := req.reply_to_message_id, is_recalled := false,
      created_at := now }
  let db2 : DB :=
    { db1 with
        messages := db1.messages ++ [message],
        conversations := db1.conversations.map fun c =>
          if c.id == conversationID then
            { c with last_message_at := some now, last_message_id := some newMsgId,
                     updated_at := now }
          else c,
        members := applyMemberUpdates env conversationID queried db1.members }
  (db2, .ok (message, derivePreview message.message_type message.content))

/-- `MessageService.SendMessage`.  The Redis lock of step 5 serialises
concurrent sends and is identity in this sequential model; both branches of
the step-5 `if`/`else if` are kept. -/
def SendMessage (env : Env) (db : DB) (senderID : UserId) (req : SendMessageRequest)
    (newConvId : ConvId) (newMsgId : MsgId) (now : Nat) :
    DB × Except SendErr (Message × Option String) :=
  if req.message_type == "text" && contentMissing req then (db, .error .contentRequired)
  else
    match resolveConversation db senderID req newConvId now with
    | (db1, .error e) => (db1, .error (.getConversation e))
    | (db1, .ok (none, _)) => (db1, .error .conversationRequired)
    | (db1, .ok (some conversationID, conversationJustCreated)) =>
      if !isConversationMember db1 conversationID senderID then (db1, .error .notMember)
      else if blockCheck db1 senderID req.receiver_id then (db1, .error .blocked)
      else if videoTooLarge env req then (db1, .error .videoTooLarge)
      else if !conversationJustCreated && env.firstMessageLimitEnabled &&
          !CheckCanSend env db1 senderID conversationID then
        (db1, .error .firstMessageLimit)
      else if !conversationJustCreated && !CheckCanSend env db1 senderID conversationID then
        (db1, .error .firstMessageLimit)
      else commitSend env db1 senderID req conversationID newMsgId now

/-! ### Group creation (ConversationService.CreateGroupConversation) -/

/-- `tx.Create` on `conversation_members` under `UNIQUE(conversation_id, user_id)`. -/
def memberKeyTaken (ms : List ConversationMember) (conversationID : ConvId)
    (userID : UserId) : Bool :=
  ms.any fun m => m.conversation_id == conversationID && m.user_id == userID

def memberRow (conversationID : ConvId) (userID : UserId) (role : String) (now : Nat) :
    ConversationMember :=
  { conversation_id := conversationID, user_id := userID, role := role, joined_at := now }

def insertMemberRow (ms : List ConversationMember) (row : ConversationMember) :
    Except Unit (List ConversationMember) :=
  if memberKeyTaken ms row.conversation_id row.user_id then .error ()
  else .ok (ms ++ [row])

/-- The member loop of `CreateGroupConversation`: each id is inserted with role
`member`, the creator is skipped, a failing insert aborts the transaction. -/
def insertGroupMembers (creatorID : UserId) (conversationID : ConvId) (now : Nat) :
    List UserId → List ConversationMember → Except Unit (List ConversationMember)
  | [], ms => .ok ms
  | memberID :: rest, ms =>
    if memberID == creatorID then insertGroupMembers creatorID conversationID now rest ms
    else
      match insertMemberRow ms (memberRow conversationID memberID "member" now) with
      | .error e => .error e
      | .ok ms2 => insertGroupMembers creatorID conversationID now rest ms2

inductive GroupErr
  | memberInsertFailed
deriving Repr, DecidableEq

/-- `ConversationService.CreateGroupConversation`: one transaction inserting
the group conversation, the creator as `owner`, and the listed members; an
error rolls the whole transaction back. -/
def CreateGroupConversation (db : DB) (creatorID : UserId) (groupName : String)
    (memberIDs : List UserId) (newConvId : ConvId) (now : Nat) :
    DB × Except GroupErr Conversation :=
  let conversation : Conversation :=
    { id := newConvId, conversation_type := "group", group_name := some groupName,
      created_at := now, updated_at := now }
  match insertMemberRow db.members (memberRow newConvId creatorID "owner" now) with
  | .error _ => (db, .error .memberInsertFailed)
  | .ok ms1 =>
    match insertGroupMembers creatorID newConvId now memberIDs ms1 with
    | .error _ => (db, .error .memberInsertFailed)
    | .ok ms2 =>
      ({ db with conversations := db.conversations ++ [conversation], members := ms2 },
       .ok conversation)

/-! ### WebSocket hub registration (handler/websocket.go) -/

/-- The hub registry `map[userID]map[clientID]*Client`, modelled as the list of
session ids per user, plus the per-user device cap. -/
structure Hub where
  clients : UserId → List Nat
  maxConnectionsPerUser : Nat

/-- `NewHub` defaults the cap to 18 devices per user. -/
def NewHub : Hub := { clients := fun _ => [], maxConnectionsPerUser := 18 }

/-- Observable actions `Register` takes on the new socket. -/
inductive HubAction
  | errorFrame (code message : String)
  | closeFrame (closeCode : Nat) (reason : String)
  | closeConn
deriving Repr, DecidableEq

/-- `fmt.Sprintf("Maximum %d devices allowed", maxConn)`. -/
def deviceLimitMessage (maxConn : Nat) : String :=
  "Maximum " ++ toString maxConn ++ " devices allowed"

/-- `Hub.Register`: at or above the cap the new socket gets a structured error
frame, then a normal-closure (1000) close frame, and is closed; below the cap
the session is added. -/
def Register (h : Hub) (userID : UserId) (sessionID : Nat) : Hub × List HubAction :=
  if (h.clients userID).length ≥ h.maxConnectionsPerUser then
    (h, [HubAction.errorFrame "too_many_devices" (deviceLimitMessage h.maxConnectionsPerUser),
         HubAction.closeFrame 1000 (deviceLimitMessage h.maxConnectionsPerUser),
         HubAction.closeConn])
  else
    ({ h with clients := fun u =>
        if u == userID then h.clients userID ++ [sessionID] else h.clients u },
     [])

/-! ## Concrete stores used by the claim theorems -/

def emptyDB : DB := {}

/-- A store holding one text message from user 7 created at t = 0. -/
def recallDemoDB : DB :=
  { messages := [{ id := 1, conversation_id := 1, sender_id := 7, message_type := "text",
                   content := some "hi", created_at := 0 }] }

/-- C1: the recall guard in the code is `elapsedSeconds > 10`, not the 120-second
window of the claim (and of the code's own comments and error message): the
sender's recall of a not-yet-recalled message is rejected as window-expired at
created_at + 119 s and + 121 s alike, accepted at + 10 s, rejected at + 11 s. -/
theorem recall_window_is_ten_seconds :
    (RecallMessage recallDemoDB 7 1 119).2 = .error .windowExpired ∧
    (RecallMessage recallDemoDB 7 1 121).2 = .error .windowExpired ∧
    (RecallMessage recallDemoDB 7 1 10).2 = .ok () ∧
    (RecallMessage recallDemoDB 7 1 11).2 = .error .windowExpired :=
  ⟨rfl, rfl, rfl, rfl⟩

/-! ## C7: hub registration device cap -/

/-- C7: registering a session for a user at or above `MaxConnectionsPerUser`
emits a structured `too_many_devices` error frame, then a normal-closure close
frame carrying the device-limit reason, then closes the socket, and leaves the
registry without the new session; below the cap the session is appended.
`NewHub` defaults the cap to 18. -/
theorem hub_register_device_cap (h : Hub) (userID : UserId) (sessionID : Nat)
    (hfresh : sessionID ∉ h.clients userID) :
    ((h.clients userID).length ≥ h.maxConnectionsPerUser →
      (Register h userID sessionID).2 =
        [HubAction.errorFrame "too_many_devices" (deviceLimitMessage h.maxConnectionsPerUser),
         HubAction.closeFrame 1000 (deviceLimitMessage h.maxConnectionsPerUser),
         HubAction.closeConn] ∧
      (∀ u, (Register h userID sessionID).1.clients u = h.clients u) ∧
      sessionID ∉ (Register h userID sessionID).1.clients userID) ∧
    ((h.clients userID).length < h.maxConnectionsPerUser →
      (Register h userID sessionID).1.clients userID = h.clients userID ++ [sessionID] ∧
      ∀ u, u ≠ userID → (Register h userID sessionID).1.clients u = h.clients u) ∧
    NewHub.maxConnectionsPerUser = 18 := by
  refine ⟨fun hge => ?_, fun hlt => ?_, rfl⟩
  · simp only [Register, if_pos hge]
    exact ⟨by simp, by simp, hfresh⟩
  · have hnot : ¬ (h.clients userID).length ≥ h.maxConnectionsPerUser := Nat.not_le.mpr hlt
    simp only [Register, if_neg hnot]
    refine ⟨by simp, fun u hu => ?_⟩
    simp [hu]

/-- An 18-device user (user 1) next to an offline user. -/
def demoHub : Hub :=
  { clients := fun u => if u == 1 then (List.range 18).map (fun i => 10 + i) else [],
    maxConnectionsPerUser := 18 }

theorem hub_register_device_cap_witness :
    (Register demoHub 1 99).2 =
      [HubAction.errorFrame "too_many_devices" (deviceLimitMessage 18),
       HubAction.closeFrame 1000 (deviceLimitMessage 18), HubAction.closeConn] ∧
    (Register demoHub 2 5).1.clients 2 = [5] := by
  refine ⟨((hub_register_device_cap demoHub 1 99 (by decide)).1 (by decide)).1, ?_⟩
  exact (((hub_register_device_cap demoHub 2 5 (by decide)).2).1 (by decide)).1

/-! ## C2: member updates on send -/

def c2Env : Env :=
  { firstMessageLimitEnabled := true, viewing := fun _ _ => false, maxVideoSizeMB := 5 }

/-- A group with sender 7 and one member (user 2) who has left (`left_at` set). -/
def c2DB : DB :=
  { conversations := [{ id := 1, conversation_type := "group", group_name := some "g" }],
    members := [{ conversation_id := 1, user_id := 7, role := "owner" },
                { conversation_id := 1, user_id := 2, left_at := some 5 }] }

def c2Req : SendMessageRequest :=
  { conversation_id := some 1, message_type := "text", content := some "hi" }

/-- C2 counterexample: the member snapshot of `SendMessage` has no
`left_at IS NULL` filter, so a successful send updates the row of user 2, who
has left the conversation and is not viewing it: their `unread_count` is
incremented to 1 instead of staying unchanged as the claim requires. -/
theorem sendMessage_updates_left_member :
    (SendMessage c2Env c2DB 7 c2Req 99 100 50).2.isOk = true ∧
    (SendMessage c2Env c2DB 7 c2Req 99 100 50).1.members =
      [{ conversation_id := 1, user_id := 7, role := "owner" },
       { conversation_id := 1, user_id := 2, left_at := some 5, is_hidden := false,
         unread_count := 1 }] :=
  ⟨rfl, rfl⟩

/-! ## C10: sending to oneself -/

def selfSendEnv : Env :=
  { firstMessageLimitEnabled := true, viewing := fun _ _ => false, maxVideoSizeMB := 5 }

def selfSendTextReq : SendMessageRequest := { receiver_id := some 1, message_type := "text" }

/-- C10 counterexample: a self-addressed text request without content fails at
the step-0 content validation, not with the cannot-send-to-yourself error the
claim names. -/
theorem sendMessage_self_text_content_error :
    (SendMessage selfSendEnv emptyDB 1 selfSendTextReq 99 100 50).2 = .error .contentRequired ∧
    SendErr.contentRequired ≠ SendErr.getConversation .selfSend :=
  ⟨rfl, by decide⟩

/-- C10 amended: a request without `conversation_id` whose `receiver_id` is the
sender always fails and creates nothing; the error is the
cannot-send-to-yourself error except when the step-0 content validation of a
text message fails first. -/
theorem sendMessage_self_rejected (env : Env) (db : DB) (senderID : UserId)
    (req : SendMessageRequest) (ncid nmid now : Nat)
    (hc : req.conversation_id = none) (hr : req.receiver_id = some senderID) :
    (SendMessage env db senderID req ncid nmid now).1 = db ∧
    (∃ e, (SendMessage env db senderID req ncid nmid now).2 = .error e) ∧
    (¬(req.message_type = "text" ∧ contentMissing req = true) →
      (SendMessage env db senderID req ncid nmid now).2 =
        .error (.getConversation .selfSend)) := by
  have hres : resolveConversation db senderID req ncid now = (db, .error .selfSend) := by
    simp [resolveConversation, hc, hr, getOrCreatePrivateConversation]
  by_cases hval : (req.message_type == "text" && contentMissing req) = true
  · refine ⟨by simp [SendMessage, hval], ⟨.contentRequired, by simp [SendMessage, hval]⟩,
      fun hn => ?_⟩
    rw [Bool.and_eq_true, beq_iff_eq] at hval
    exact absurd hval hn
  · exact ⟨by simp [SendMessage, hval, hres], ⟨.getConversation .selfSend,
      by simp [SendMessage, hval, hres]⟩, fun _ => by simp [SendMessage, hval, hres]⟩

def selfSendImageReq : SendMessageRequest := { receiver_id := some 1, message_type := "image" }

theorem sendMessage_self_rejected_witness :
    (SendMessage selfSendEnv emptyDB 1 selfSendImageReq 99 100 50).1 = emptyDB ∧
    (SendMessage selfSendEnv emptyDB 1 selfSendImageReq 99 100 50).2 =
      .error (.getConversation .selfSend) := by
  obtain ⟨h1, -, h3⟩ :=
    sendMessage_self_rejected selfSendEnv emptyDB 1 selfSendImageReq 99 100 50 rfl rfl
  exact ⟨h1, h3 (by decide)⟩

/-! ## C9: group creation -/

/-- C9 counterexample: a duplicated non-creator id in `memberIds` makes the
second member insert violate `UNIQUE(conversation_id, user_id)`, so the
transaction rolls back with an error and no single deduplicated row results. -/
theorem createGroup_duplicate_member_errors :
    (CreateGroupConversation emptyDB 1 "g" [2, 2] 10 0).2 = .error .memberInsertFailed ∧
    (CreateGroupConversation emptyDB 1 "g" [2, 2] 10 0).1 = emptyDB :=
  ⟨rfl, rfl⟩

/-! ## C8: preview derivation -/

/-- Written from the amended spec sentence: text → the first 50 characters
followed by `...` when the content is longer, otherwise the content; image,
video and emoji → the fixed bracket strings the code uses. -/
def specPreviewAmended (messageType : String) (content : Option String) : Option String :=
  if messageType = "text" then
    content.map fun s =>
      if 50 < s.toList.length then String.mk (s.toList.take 50) ++ "..." else s
  else if messageType = "image" then some "[图片]"
  else if messageType = "video" then some "[视频]"
  else if messageType = "emoji" then some "[表情]"
  else none

theorem derivePreview_eq_spec (t : String) (c : Option String) :
    derivePreview t c = specPreviewAmended t c := by
  unfold derivePreview specPreviewAmended
  cases c <;> simp [beq_iff_eq]
  split_ifs <;> rfl

def previewDemoEnv : Env :=
  { firstMessageLimitEnabled := false, viewing := fun _ _ => false, maxVideoSizeMB := 5 }

def previewDemoDB : DB :=
  { conversations := [{ id := 1, conversation_type := "group", group_name := some "g" }],
    members := [{ conversation_id := 1, user_id := 7, role := "owner" },
                { conversation_id := 1, user_id := 2 }] }

def previewDemoReq : SendMessageRequest := { conversation_id := some 1, message_type := "image" }

/-- C8 counterexample: a persisted image message gets the preview `[图片]`,
not the string `[image]` stated by the claim. -/
theorem sendMessage_image_preview_not_english :
    ((SendMessage previewDemoEnv previewDemoDB 7 previewDemoReq 99 100 50).2.map Prod.snd)
      = .ok (some "[图片]") ∧ ("[图片]" : String) ≠ "[image]" :=
  ⟨rfl, by decide⟩

/-- C8 amended: for every message persisted by a successful send, the preview
derived after the transaction is: for kind text the first 50 characters of the
content followed by `...` when longer than 50 characters, otherwise the
content; for image `[图片]`; for video `[视频]`; for emoji `[表情]`. -/
theorem sendMessage_preview_spec (env : Env) (db : DB) (senderID : UserId)
    (req : SendMessageRequest) (ncid nmid now : Nat) (msg : Message) (p : Option String)
    (hok : (SendMessage env db senderID req ncid nmid now).2 = .ok (msg, p)) :
    p = specPreviewAmended msg.message_type msg.content := by
  unfold SendMessage at hok
  split at hok
  · exact absurd hok (by simp)
  split at hok
  · exact absurd hok (by simp)
  · exact absurd hok (by simp)
  split at hok
  · exact absurd hok (by simp)
  split at hok
  · exact absurd hok (by simp)
  split at hok
  · exact absurd hok (by simp)
  split at hok
  · exact absurd hok (by simp)
  split at hok
  · exact absurd hok (by simp)
  unfold commitSend at hok
  simp only [Except.ok.injEq, Prod.mk.injEq] at hok
  obtain ⟨h1, h2⟩ := hok
  subst h1
  rw [← h2]
  exact derivePreview_eq_spec _ _

theorem sendMessage_preview_spec_witness :
    some "[图片]" = specPreviewAmended "image" none := by
  have h := sendMessage_preview_spec previewDemoEnv previewDemoDB 7 previewDemoReq 99 100 50
    { id := 100, conversation_id := 1, sender_id := 7, message_type := "image",
      created_at := 50 } (some "[图片]") (by rfl)
  exact h

/-! ## C5: first-message limit -/

theorem checkCanSend_disabled (env : Env) (db : DB) (userID : UserId) (conversationID : ConvId)
    (hoff : env.firstMessageLimitEnabled = false) :
    CheckCanSend env db userID conversationID = true := by
  simp [CheckCanSend, hoff]

/-- C5: `CheckCanSend` is true for every group conversation; with the feature
enabled it is true for a private conversation iff the sender has sent no
message there or some other party has; with the feature off it is true
everywhere and `SendMessage` never fails with the first-message-limit error. -/
theorem checkCanSend_spec :
    (∀ (env : Env) (db : DB) (userID : UserId) (conversationID : ConvId)
        (conv : Conversation),
      db.conversations.find? (fun c => c.id == conversationID) = some conv →
      conv.conversation_type = "group" →
      CheckCanSend env db userID conversationID = true) ∧
    (∀ (env : Env) (db : DB) (userID : UserId) (conversationID : ConvId)
        (conv : Conversation),
      env.firstMessageLimitEnabled = true →
      db.conversations.find? (fun c => c.id == conversationID) = some conv →
      conv.conversation_type = "private" →
      (CheckCanSend env db userID conversationID = true ↔
        (db.messages.filter fun m =>
          m.conversation_id == conversationID && m.sender_id == userID).length = 0 ∨
        0 < (db.messages.filter fun m =>
          m.conversation_id == conversationID && m.sender_id != userID).length)) ∧
    (∀ (env : Env) (db : DB) (userID : UserId) (conversationID : ConvId),
      env.firstMessageLimitEnabled = false →
      CheckCanSend env db userID conversationID = true) ∧
    (∀ (env : Env) (db : DB) (senderID : UserId) (req : SendMessageRequest)
        (ncid nmid now : Nat),
      env.firstMessageLimitEnabled = false →
      (SendMessage env db senderID req ncid nmid now).2 ≠ .error .firstMessageLimit) := by
  refine ⟨?_, ?_, fun env db u c hoff => checkCanSend_disabled env db u c hoff, ?_⟩
  · intro env db userID conversationID conv hfind htype
    cases hE : env.firstMessageLimitEnabled
    · exact checkCanSend_disabled env db userID conversationID hE
    · simp [CheckCanSend, hE, hfind, htype]
  · intro env db userID conversationID conv hE hfind htype
    simp only [CheckCanSend, hE, Bool.not_true, Bool.false_eq_true, if_false, hfind, htype]
    split_ifs with h1 h2
    · simp_all
    · simp_all
    · simp_all
  · intro env db senderID req ncid nmid now hoff h
    have hcan : ∀ (db0 : DB) (u : UserId) (c : ConvId), CheckCanSend env db0 u c = true :=
      fun db0 u c => checkCanSend_disabled env db0 u c hoff
    unfold SendMessage at h
    split at h
    · simp at h
    split at h
    · simp at h
    · simp at h
    split at h
    · simp at h
    split at h
    · simp at h
    split at h
    · simp at h
    split at h
    · rename_i hcond
      simp [hcan, hoff] at hcond
    split at h
    · rename_i hcond
      simp [hcan] at hcond
    · simp [commitSend] at h

def c5EnvOn : Env :=
  { firstMessageLimitEnabled := true, viewing := fun _ _ => false, maxVideoSizeMB := 5 }

def c5EnvOff : Env :=
  { firstMessageLimitEnabled := false, viewing := fun _ _ => false, maxVideoSizeMB := 5 }

def c5DB : DB :=
  { conversations := [{ id := 1, conversation_type := "group", group_name := some "g" },
                      { id := 2, conversation_type := "private" }],
    members := [{ conversation_id := 1, user_id := 1, role := "owner" },
                { conversation_id := 2, user_id := 1 }, { conversation_id := 2, user_id := 9 }],
    messages := [{ id := 5, conversation_id := 2, sender_id := 1, message_type := "text",
                   content := some "hi", created_at := 3 }] }

def c5Req : SendMessageRequest :=
  { conversation_id := some 2, message_type := "text", content := some "again" }

theorem checkCanSend_spec_witness :
    CheckCanSend c5EnvOn c5DB 4 1 = true ∧
    (CheckCanSend c5EnvOn c5DB 1 2 = true ↔
      (c5DB.messages.filter fun m => m.conversation_id == 2 && m.sender_id == 1).length = 0 ∨
      0 < (c5DB.messages.filter fun m => m.conversation_id == 2 && m.sender_id != 1).length) ∧
    CheckCanSend c5EnvOff c5DB 1 2 = true ∧
    (SendMessage c5EnvOff c5DB 1 c5Req 99 100 50).2 ≠ .error .firstMessageLimit := by
  refine ⟨checkCanSend_spec.1 c5EnvOn c5DB 4 1
      { id := 1, conversation_type := "group", group_name := some "g" } (by decide) rfl,
    checkCanSend_spec.2.1 c5EnvOn c5DB 1 2 { id := 2, conversation_type := "private" }
      rfl (by decide) rfl,
    checkCanSend_spec.2.2.1 c5EnvOff c5DB 1 2 rfl,
    checkCanSend_spec.2.2.2 c5EnvOff c5DB 1 c5Req 99 100 50 rfl⟩

/-! ## C6: block check -/

theorem getOrCreate_preserves (db : DB) (u1 u2 : UserId) (ncid now : Nat) :
    (getOrCreatePrivateConversation db u1 u2 ncid now).1.messages = db.messages ∧
    (getOrCreatePrivateConversation db u1 u2 ncid now).1.relationships = db.relationships := by
  unfold getOrCreatePrivateConversation createPrivateConversation
  split
  · exact ⟨rfl, rfl⟩
  · split
    · exact ⟨rfl, rfl⟩
    · split
      · exact ⟨rfl, rfl⟩
      · exact ⟨rfl, rfl⟩

theorem resolve_preserves (db : DB) (senderID : UserId) (req : SendMessageRequest)
    (ncid now : Nat) :
    (resolveConversation db senderID req ncid now).1.messages = db.messages ∧
    (resolveConversation db senderID req ncid now).1.relationships = db.relationships := by
  cases hc : req.conversation_id
  · cases hr : req.receiver_id
    · simp [resolveConversation, hc, hr]
    · rename_i receiverID
      have hp := getOrCreate_preserves db senderID receiverID ncid now
      rcases hgo : getOrCreatePrivateConversation db senderID receiverID ncid now with ⟨db1, res⟩
      rw [hgo] at hp
      cases res with
      | ok val =>
        obtain ⟨cid, just⟩ := val
        simp only [resolveConversation, hc, hr, hgo]
        exact hp
      | error e =>
        simp only [resolveConversation, hc, hr, hgo]
        exact hp
  · simp [resolveConversation, hc]

/-- C6: when `(receiver, sender, blocked)` exists, a send carrying that
receiver fails and inserts no message row, with the blocked error once the
earlier content/membership guards pass; without that row the blocked error is
never produced, so a sender-held `(sender, receiver, blocked)` row alone never
refuses the send. -/
theorem sendMessage_block_spec (env : Env) (db : DB) (senderID : UserId)
    (req : SendMessageRequest) (receiverID : UserId) (cid : ConvId) (ncid nmid now : Nat)
    (hr : req.receiver_id = some receiverID) :
    (isBlocked db senderID receiverID = true →
      ((SendMessage env db senderID req ncid nmid now).1.messages = db.messages ∧
        ∃ e, (SendMessage env db senderID req ncid nmid now).2 = .error e) ∧
      (req.conversation_id = some cid →
        ¬(req.message_type = "text" ∧ contentMissing req = true) →
        isConversationMember db cid senderID = true →
        SendMessage env db senderID req ncid nmid now = (db, .error .blocked))) ∧
    (isBlocked db senderID receiverID = false →
      (SendMessage env db senderID req ncid nmid now).2 ≠ .error .blocked) := by
  constructor
  · intro hb
    constructor
    · unfold SendMessage
      split
      · exact ⟨rfl, .contentRequired, rfl⟩
      have hp := resolve_preserves db senderID req ncid now
      split
      · rename_i db1 e heq
        rw [heq] at hp
        exact ⟨hp.1, .getConversation e, rfl⟩
      · rename_i db1 just heq
        rw [heq] at hp
        exact ⟨hp.1, .conversationRequired, rfl⟩
      · rename_i db1 cid1 just heq
        rw [heq] at hp
        have hbc : blockCheck db1 senderID req.receiver_id = true := by
          rw [hr]
          show isBlocked db1 senderID receiverID = true
          unfold isBlocked at hb ⊢
          rw [hp.2]
          exact hb
        split
        · exact ⟨hp.1, .notMember, rfl⟩
        · simp only [hbc, if_true]
          exact ⟨hp.1, .blocked, rfl⟩
    · intro hcid hval hmem
      have hv : (req.message_type == "text" && contentMissing req) = false := by
        cases h2 : (req.message_type == "text" && contentMissing req)
        · rfl
        · rw [Bool.and_eq_true, beq_iff_eq] at h2
          exact absurd h2 hval
      have hres : resolveConversation db senderID req ncid now = (db, .ok (some cid, false)) := by
        simp [resolveConversation, hcid]
      have hbc : blockCheck db senderID req.receiver_id = true := by
        rw [hr]
        exact hb
      simp [SendMessage, hv, hres, hmem, hbc]
  · intro hnb h
    unfold SendMessage at h
    split at h
    · simp at h
    have hp := resolve_preserves db senderID req ncid now
    split at h
    · simp at h
    · simp at h
    · rename_i db1 cid1 just heq
      rw [heq] at hp
      split at h
      · simp at h
      split at h
      · rename_i hcond
        rw [hr] at hcond
        have hbl : isBlocked db1 senderID receiverID = true := hcond
        unfold isBlocked at hbl
        rw [hp.2] at hbl
        have hnb2 : (db.relationships.any fun r =>
            r.user_id == receiverID && r.target_user_id == senderID &&
              r.relationship_type == "blocked") = false := hnb
        rw [hnb2] at hbl
        exact Bool.false_ne_true hbl
      split at h
      · simp at h
      split at h
      · simp at h
      split at h
      · simp at h
      · simp [commitSend] at h

def c6Env : Env :=
  { firstMessageLimitEnabled := false, viewing := fun _ _ => false, maxVideoSizeMB := 5 }

def c6DB : DB :=
  { conversations := [{ id := 1, conversation_type := "private" }],
    members := [{ conversation_id := 1, user_id := 1 }, { conversation_id := 1, user_id := 2 }],
    relationships := [{ user_id := 2, target_user_id := 1, relationship_type := "blocked" }] }

/-- Same store, but only a sender-held block row `(1, 2, blocked)`. -/
def c6DB2 : DB :=
  { conversations := [{ id := 1, conversation_type := "private" }],
    members := [{ conversation_id := 1, user_id := 1 }, { conversation_id := 1, user_id := 2 }],
    relationships := [{ user_id := 1, target_user_id := 2, relationship_type := "blocked" }] }

def c6Req : SendMessageRequest :=
  { conversation_id := some 1, receiver_id := some 2, message_type := "text",
    content := some "hi" }

theorem sendMessage_block_spec_witness :
    SendMessage c6Env c6DB 1 c6Req 99 100 50 = (c6DB, .error .blocked) ∧
    (SendMessage c6Env c6DB2 1 c6Req 99 100 50).2 ≠ .error .blocked := by
  refine ⟨((sendMessage_block_spec c6Env c6DB 1 c6Req 2 1 99 100 50 rfl).1
      (by decide)).2 rfl (by decide) (by decide), ?_⟩
  exact (sendMessage_block_spec c6Env c6DB2 1 c6Req 2 1 99 100 50 rfl).2 (by decide)

/-! ## C2 amended: the member-update loop characterised -/

/-- The row transformation of the 8.3 UPDATE loop, expressed on the row itself. -/
def memberUpd (env : Env) (conversationID : ConvId) (m : ConversationMember) :
    ConversationMember :=
  { m with is_hidden := false,
           unread_count :=
             if env.viewing m.user_id conversationID then m.unread_count
             else m.unread_count + 1 }

@[simp] theorem memberUpd_conversation_id (env : Env) (cid : ConvId)
    (m : ConversationMember) : (memberUpd env cid m).conversation_id = m.conversation_id := rfl

@[simp] theorem memberUpd_user_id (env : Env) (cid : ConvId) (m : ConversationMember) :
    (memberUpd env cid m).user_id = m.user_id := rfl

/-- One UPDATE of the loop, rephrased on the matched row (whose `user_id`
equals the loop variable's). -/
theorem step_map_eq (env : Env) (cid : ConvId) (q : ConversationMember)
    (ms : List ConversationMember) :
    (ms.map fun m =>
      if m.conversation_id == cid && m.user_id == q.user_id then
        { m with is_hidden := false,
                 unread_count :=
                   if env.viewing q.user_id cid then m.unread_count
                   else m.unread_count + 1 }
      else m) =
    ms.map fun m =>
      if m.conversation_id == cid && m.user_id == q.user_id then memberUpd env cid m
      else m := by
  refine List.map_congr_left fun m _ => ?_
  by_cases hc : (m.conversation_id == cid && m.user_id == q.user_id) = true
  · rw [if_pos hc, if_pos hc]
    rw [Bool.and_eq_true, beq_iff_eq, beq_iff_eq] at hc
    unfold memberUpd
    rw [hc.2]
  · rw [if_neg hc, if_neg hc]

theorem applyMemberUpdates_eq_map (env : Env) (cid : ConvId) :
    ∀ (queried ms : List ConversationMember),
      (queried.map fun q => q.user_id).Nodup →
      applyMemberUpdates env cid queried ms =
        ms.map fun m =>
          if m.conversation_id == cid && queried.any (fun q => q.user_id == m.user_id) then
            memberUpd env cid m
          else m := by
  intro queried
  induction queried with
  | nil =>
    intro ms _
    simp [applyMemberUpdates]
  | cons q rest ih =>
    intro ms hnd
    rw [List.map_cons, List.nodup_cons] at hnd
    obtain ⟨hq, hrest⟩ := hnd
    have hstep : applyMemberUpdates env cid (q :: rest) ms =
        applyMemberUpdates env cid rest (ms.map fun m =>
          if m.conversation_id == cid && m.user_id == q.user_id then
            { m with is_hidden := false,
                     unread_count :=
                       if env.viewing q.user_id cid then m.unread_count
                       else m.unread_count + 1 }
          else m) := rfl
    rw [hstep, step_map_eq, ih _ hrest, List.map_map]
    refine List.map_congr_left fun m _ => ?_
    simp only [Function.comp_apply]
    by_cases hc : (m.conversation_id == cid && m.user_id == q.user_id) = true
    · rw [if_pos hc]
      have hparts := hc
      rw [Bool.and_eq_true] at hparts
      obtain ⟨h1, h2⟩ := hparts
      have he : m.user_id = q.user_id := by rw [beq_iff_eq] at h2; exact h2
      have hq2 : (q.user_id == m.user_id) = true := by
        rw [beq_iff_eq]
        exact he.symm
      have hrestf0 : (rest.any fun q2 => q2.user_id == m.user_id) = false := by
        cases hcon : rest.any fun q2 => q2.user_id == m.user_id
        · rfl
        · rw [List.any_eq_true] at hcon
          obtain ⟨q2, hmem, heq2⟩ := hcon
          rw [beq_iff_eq] at heq2
          exact absurd (List.mem_map.mpr ⟨q2, hmem, by rw [heq2, he]⟩) hq
      simp [h1, h2, hq2, hrestf0, List.any_cons]
    · rw [if_neg hc]
      cases hb1 : (m.conversation_id == cid) <;> cases hb2 : (q.user_id == m.user_id)
      · simp [hb1, hb2, List.any_cons]
      · simp [hb1, hb2, List.any_cons]
      · simp [hb1, hb2, List.any_cons]
      · exfalso
        apply hc
        rw [hb1]
        have : (m.user_id == q.user_id) = true := by
          rw [beq_iff_eq]
          exact (beq_iff_eq.mp hb2).symm
        rw [this]
        rfl

/-- Reduction of `SendMessage` once the validation guard is known false and the
conversation resolution is known. -/
theorem sendMessage_resolved (env : Env) (db : DB) (senderID : UserId)
    (req : SendMessageRequest) (ncid nmid now : Nat) (db1 : DB) (cid : ConvId) (just : Bool)
    (hv : (req.message_type == "text" && contentMissing req) = false)
    (hres : resolveConversation db senderID req ncid now = (db1, .ok (some cid, just))) :
    SendMessage env db senderID req ncid nmid now =
      (if !isConversationMember db1 cid senderID then (db1, .error .notMember)
       else if blockCheck db1 senderID req.receiver_id then (db1, .error .blocked)
       else if videoTooLarge env req then (db1, .error .videoTooLarge)
       else if !just && env.firstMessageLimitEnabled &&
           !CheckCanSend env db1 senderID cid then
         (db1, .error .firstMessageLimit)
       else if !just && !CheckCanSend env db1 senderID cid then
         (db1, .error .firstMessageLimit)
       else commitSend env db1 senderID req cid nmid now) := by
  unfold SendMessage
  rw [hv, hres]
  rfl

/-- C2 amended: every successful send - whether the conversation was given
explicitly or resolved/created from the receiver - rewrites the member table
of the post-resolution store pointwise: every row of the resolved conversation
`cid` other than the sender's, whether or not the member has left, gets
`is_hidden := false` and `unread_count` incremented unless the member was in
the viewing snapshot; all other rows are untouched. -/
theorem sendMessage_member_updates (env : Env) (db db1 : DB) (senderID : UserId)
    (req : SendMessageRequest) (cid : ConvId) (just : Bool) (ncid nmid now : Nat)
    (msg : Message) (p : Option String)
    (hres : resolveConversation db senderID req ncid now = (db1, .ok (some cid, just)))
    (hnodup : ((db1.members.filter fun m =>
        m.conversation_id == cid && m.user_id != senderID).map fun m => m.user_id).Nodup)
    (hok : (SendMessage env db senderID req ncid nmid now).2 = .ok (msg, p)) :
    (SendMessage env db senderID req ncid nmid now).1.members =
      db1.members.map fun m =>
        if m.conversation_id == cid && m.user_id != senderID then memberUpd env cid m
        else m := by
  have hv : (req.message_type == "text" && contentMissing req) = false := by
    cases h : (req.message_type == "text" && contentMissing req)
    · rfl
    · unfold SendMessage at hok
      rw [h] at hok
      simp at hok
  rw [sendMessage_resolved env db senderID req ncid nmid now db1 cid just hv hres] at hok ⊢
  split at hok
  · simp at hok
  split at hok
  · simp at hok
  split at hok
  · simp at hok
  split at hok
  · simp at hok
  split at hok
  · simp at hok
  rename_i hn1 hn2 hn3 hn4 hn5
  rw [if_neg hn1, if_neg hn2, if_neg hn3, if_neg hn4, if_neg hn5]
  unfold commitSend
  show applyMemberUpdates env cid
      (db1.members.filter fun m => m.conversation_id == cid && m.user_id != senderID)
      db1.members =
    db1.members.map fun m =>
      if m.conversation_id == cid && m.user_id != senderID then memberUpd env cid m
      else m
  rw [applyMemberUpdates_eq_map env cid _ _ hnodup]
  refine List.map_congr_left fun m hm => ?_
  have hcond : (m.conversation_id == cid &&
      (db1.members.filter fun m2 => m2.conversation_id == cid && m2.user_id != senderID).any
        (fun q => q.user_id == m.user_id)) =
      (m.conversation_id == cid && m.user_id != senderID) := by
    cases hb1 : (m.conversation_id == cid)
    · rfl
    · cases hms : (m.user_id != senderID)
      · have hany : ((db1.members.filter fun m2 =>
            m2.conversation_id == cid && m2.user_id != senderID).any
              (fun q => q.user_id == m.user_id)) = false := by
          cases hcon : ((db1.members.filter fun m2 =>
              m2.conversation_id == cid && m2.user_id != senderID).any
                (fun q => q.user_id == m.user_id))
          · rfl
          · rw [List.any_eq_true] at hcon
            obtain ⟨qq, hqmem, hqeq⟩ := hcon
            rw [List.mem_filter, Bool.and_eq_true] at hqmem
            rw [beq_iff_eq] at hqeq
            have hqne : qq.user_id ≠ senderID := by
              have h3 := hqmem.2.2
              rwa [bne_iff_ne] at h3
            have hmeq : m.user_id = senderID := by
              have h4 := hms
              rwa [bne_eq_false_iff_eq] at h4
            exact absurd (by rw [hqeq, hmeq]) hqne
        rw [hany]
      · have hany : ((db1.members.filter fun m2 =>
            m2.conversation_id == cid && m2.user_id != senderID).any
              (fun q => q.user_id == m.user_id)) = true := by
          rw [List.any_eq_true]
          refine ⟨m, List.mem_filter.mpr ⟨hm, by rw [hb1, hms]; rfl⟩, beq_self_eq_true _⟩
        rw [hany]
  rw [hcond]

def c2ViewEnv : Env :=
  { firstMessageLimitEnabled := true, viewing := fun u _ => u == 3, maxVideoSizeMB := 5 }

/-- Group 1: sender 7, member 2 (not viewing), member 3 (viewing). -/
def c2WitnessDB : DB :=
  { conversations := [{ id := 1, conversation_type := "group", group_name := some "g" }],
    members := [{ conversation_id := 1, user_id := 7, role := "owner" },
                { conversation_id := 1, user_id := 2, is_hidden := true, unread_count := 4 },
                { conversation_id := 1, user_id := 3, unread_count := 2 }] }

/-- A send that names only the receiver, so the private conversation is
auto-created during resolution. -/
def c2ImplicitReq : SendMessageRequest :=
  { receiver_id := some 2, message_type := "text", content := some "hi" }

/-- The store after `getOrCreatePrivateConversation` created conversation 99
for users 7 and 2 from the empty store. -/
def c2ImplicitDB1 : DB :=
  { conversations := [{ id := 99, conversation_type := "private", created_at := 50,
                        updated_at := 50 }],
    members := [{ conversation_id := 99, user_id := 7, role := "member", joined_at := 50 },
                { conversation_id := 99, user_id := 2, role := "member", joined_at := 50 }] }

theorem sendMessage_member_updates_witness :
    ((SendMessage c2ViewEnv c2WitnessDB 7 c2Req 99 100 50).1.members =
      c2WitnessDB.members.map fun m =>
        if m.conversation_id == 1 && m.user_id != 7 then memberUpd c2ViewEnv 1 m
        else m) ∧
    ((SendMessage c2ViewEnv emptyDB 7 c2ImplicitReq 99 100 50).1.members =
      c2ImplicitDB1.members.map fun m =>
        if m.conversation_id == 99 && m.user_id != 7 then memberUpd c2ViewEnv 99 m
        else m) := by
  constructor
  · exact sendMessage_member_updates c2ViewEnv c2WitnessDB c2WitnessDB 7 c2Req 1 false
      99 100 50
      { id := 100, conversation_id := 1, sender_id := 7, message_type := "text",
        content := some "hi", created_at := 50 } (some "hi") rfl (by decide) (by rfl)
  · exact sendMessage_member_updates c2ViewEnv emptyDB c2ImplicitDB1 7 c2ImplicitReq 99
      true 99 100 50
      { id := 100, conversation_id := 99, sender_id := 7, message_type := "text",
        content := some "hi", created_at := 50 } (some "hi") (by rfl) (by decide) (by rfl)

/-! ## C4: conditional mark-as-read -/

/-- The SQL guard of `MarkAsRead`, read back as the spec states it: the row's
pointer is null, or the message it points to is not newer than the target.
Requires every pointer to resolve to a stored message (`hptr`) and unique
message ids. -/
theorem readCondition_iff (db : DB) (r : ConversationMember) (t : Nat)
    (hmsgids : (db.messages.map fun m => m.id).Nodup)
    (hptr : ∀ l, r.last_read_message_id = some l → ∃ pm ∈ db.messages, pm.id = l) :
    (readCondition db r t = true) ↔
      (r.last_read_message_id = none ∨
        ∃ pm ∈ db.messages, some pm.id = r.last_read_message_id ∧ pm.created_at ≤ t) := by
  unfold readCondition
  cases hlr : r.last_read_message_id with
  | none => simp
  | some l =>
    obtain ⟨pm0, hpm0, hpm0id⟩ := hptr l hlr
    have hbeqnone : ((some l == (none : Option MsgId))) = false := rfl
    rw [hbeqnone, Bool.false_or]
    constructor
    · intro h
      right
      refine ⟨pm0, hpm0, by rw [hpm0id], ?_⟩
      by_contra hgt
      rw [Nat.not_le] at hgt
      have hany : (db.messages.any fun pm =>
          some pm.id == some l && decide (pm.created_at > t)) = true := by
        rw [List.any_eq_true]
        refine ⟨pm0, hpm0, ?_⟩
        rw [hpm0id]
        simp [hgt]
      rw [hany] at h
      simp at h
    · rintro (h | ⟨pm, hpm, hpmid, hple⟩)
      · exact absurd h (by simp)
      · have hidp : pm.id = l := Option.some.inj hpmid
        have hany : (db.messages.any fun pm2 =>
            some pm2.id == some l && decide (pm2.created_at > t)) = false := by
          cases hcon : db.messages.any fun pm2 =>
              some pm2.id == some l && decide (pm2.created_at > t)
          · rfl
          · rw [List.any_eq_true] at hcon
            obtain ⟨pm2, hpm2, hpm2c⟩ := hcon
            rw [Bool.and_eq_true, decide_eq_true_eq] at hpm2c
            have hid2 : pm2.id = l := by
              have hx : (pm2.id == l) = true := hpm2c.1
              rwa [beq_iff_eq] at hx
            have hsame : pm2 = pm :=
              List.inj_on_of_nodup_map hmsgids hpm2 hpm (by rw [hid2, hidp])
            rw [hsame] at hpm2c
            exact absurd hple (Nat.not_le.mpr hpm2c.2)
        rw [hany]
        rfl

/-- C4: when the target message exists and the caller's member row is present,
the conditional UPDATE fires exactly when the row's `last_read_message_id` is
null or points to a message no newer than the target; on success the row gets
`unread_count = 0`, the new pointer and `last_read_at = now`, and a single
`unread_count_update` with count 0 is pushed; otherwise the store is unchanged
and nothing is pushed. -/
theorem markAsRead_spec (db : DB) (userID : UserId) (conversationID : ConvId)
    (messageID : MsgId) (now : Nat) (target : Message) (r : ConversationMember)
    (hkeys : (db.members.map fun m => (m.conversation_id, m.user_id)).Nodup)
    (hmsgids : (db.messages.map fun m => m.id).Nodup)
    (hptr : ∀ m ∈ db.members, ∀ l, m.last_read_message_id = some l →
      ∃ pm ∈ db.messages, pm.id = l)
    (htarget : db.messages.find? (fun m => m.id == messageID) = some target)
    (hrow : r ∈ db.members) (hrc : r.conversation_id = conversationID)
    (hru : r.user_id = userID) :
    ((r.last_read_message_id = none ∨
      ∃ pm ∈ db.messages, some pm.id = r.last_read_message_id ∧
        pm.created_at ≤ target.created_at) →
      MarkAsRead db userID conversationID messageID now =
        .ok ({ db with members := db.members.map fun m =>
            if m.conversation_id == conversationID && m.user_id == userID then
              { m with unread_count := 0, last_read_message_id := some messageID,
                       last_read_at := some now }
            else m },
          [Event.unreadCountUpdate userID conversationID 0])) ∧
    (¬(r.last_read_message_id = none ∨
      ∃ pm ∈ db.messages, some pm.id = r.last_read_message_id ∧
        pm.created_at ≤ target.created_at) →
      MarkAsRead db userID conversationID messageID now = .ok (db, [])) := by
  have hiff := readCondition_iff db r target.created_at hmsgids (hptr r hrow)
  have huniq : ∀ m ∈ db.members,
      (m.conversation_id == conversationID && m.user_id == userID) = true → m = r := by
    intro m hm hcnd
    rw [Bool.and_eq_true, beq_iff_eq, beq_iff_eq] at hcnd
    exact List.inj_on_of_nodup_map hkeys hm hrow
      (by rw [hcnd.1, hcnd.2, hrc, hru])
  have hrkey : (r.conversation_id == conversationID && r.user_id == userID) = true := by
    rw [hrc, hru, beq_self_eq_true, beq_self_eq_true]
    rfl
  constructor
  · intro hcond
    have hrc2 : readCondition db r target.created_at = true := hiff.mpr hcond
    have hmem : r ∈ db.members.filter fun m =>
        m.conversation_id == conversationID && m.user_id == userID &&
          readCondition db m target.created_at := by
      rw [List.mem_filter]
      refine ⟨hrow, ?_⟩
      rw [hrkey, hrc2]
      rfl
    have hlen : 0 < (db.members.filter fun m =>
        m.conversation_id == conversationID && m.user_id == userID &&
          readCondition db m target.created_at).length :=
      List.length_pos_of_mem hmem
    have hpoint : ∀ m ∈ db.members,
        (if m.conversation_id == conversationID && m.user_id == userID &&
            readCondition db m target.created_at then
          { m with unread_count := 0, last_read_message_id := some messageID,
                   last_read_at := some now }
        else m) =
        (if m.conversation_id == conversationID && m.user_id == userID then
          { m with unread_count := 0, last_read_message_id := some messageID,
                   last_read_at := some now }
        else m) := by
      intro m hm
      by_cases hk : (m.conversation_id == conversationID && m.user_id == userID) = true
      · have hmr : m = r := huniq m hm hk
        rw [hk, hmr, hrc2]
        rfl
      · have hkf : (m.conversation_id == conversationID && m.user_id == userID) = false := by
          cases hx : m.conversation_id == conversationID && m.user_id == userID
          · rfl
          · exact absurd hx hk
        rw [hkf]
        rfl
    simp only [MarkAsRead, htarget]
    rw [if_pos hlen, List.map_congr_left hpoint]
  · intro hcond
    have hrc2 : readCondition db r target.created_at = false := by
      cases hx : readCondition db r target.created_at
      · rfl
      · exact absurd (hiff.mp hx) hcond
    have hfilter : (db.members.filter fun m =>
        m.conversation_id == conversationID && m.user_id == userID &&
          readCondition db m target.created_at) = [] := by
      rw [List.filter_eq_nil_iff]
      intro m hm hfull
      rw [Bool.and_eq_true] at hfull
      have hmr : m = r := huniq m hm hfull.1
      rw [hmr, hrc2] at hfull
      exact Bool.false_ne_true hfull.2
    have hpoint : ∀ m ∈ db.members,
        (if m.conversation_id == conversationID && m.user_id == userID &&
            readCondition db m target.created_at then
          { m with unread_count := 0, last_read_message_id := some messageID,
                   last_read_at := some now }
        else m) = m := by
      intro m hm
      have hfull : (m.conversation_id == conversationID && m.user_id == userID &&
          readCondition db m target.created_at) = false := by
        cases hx : m.conversation_id == conversationID && m.user_id == userID &&
            readCondition db m target.created_at
        · rfl
        · rw [Bool.and_eq_true] at hx
          have hmr : m = r := huniq m hm hx.1
          rw [hmr, hrc2] at hx
          exact absurd hx.2 Bool.false_ne_true
      rw [hfull]
      rfl
    simp only [MarkAsRead, htarget]
    rw [hfilter, List.map_congr_left hpoint]
    simp

def c4Member : ConversationMember :=
  { conversation_id := 1, user_id := 2, unread_count := 3,
    last_read_message_id := some 6, last_read_at := some 20 }

def c4Msg5 : Message :=
  { id := 5, conversation_id := 1, sender_id := 9, message_type := "text",
    content := some "a", created_at := 10 }

def c4Msg6 : Message :=
  { id := 6, conversation_id := 1, sender_id := 9, message_type := "text",
    content := some "b", created_at := 20 }

def c4DB : DB :=
  { conversations := [{ id := 1, conversation_type := "private" }],
    members := [c4Member],
    messages := [c4Msg5, c4Msg6] }

theorem markAsRead_spec_witness :
    (MarkAsRead c4DB 2 1 6 30 =
      .ok ({ c4DB with members := c4DB.members.map fun m =>
          if m.conversation_id == 1 && m.user_id == 2 then
            { m with unread_count := 0, last_read_message_id := some 6,
                     last_read_at := some 30 }
          else m },
        [Event.unreadCountUpdate 2 1 0])) ∧
    MarkAsRead c4DB 2 1 5 31 = .ok (c4DB, []) := by
  have hptr : ∀ m ∈ c4DB.members, ∀ l, m.last_read_message_id = some l →
      ∃ pm ∈ c4DB.messages, pm.id = l := by
    intro m hm l hl
    have hm2 : m ∈ [c4Member] := hm
    rw [List.mem_singleton] at hm2
    subst hm2
    have hl6 : (6 : MsgId) = l := by
      have hl2 : some (6 : MsgId) = some l := hl
      exact Option.some.inj hl2
    exact ⟨c4Msg6, by decide, hl6⟩
  constructor
  · refine (markAsRead_spec c4DB 2 1 6 30 c4Msg6 c4Member
      (by decide) (by decide) hptr (by rfl) (by decide) rfl rfl).1 ?_
    right
    exact ⟨c4Msg6, by decide, rfl, by decide⟩
  · refine (markAsRead_spec c4DB 2 1 5 31 c4Msg5 c4Member
      (by decide) (by decide) hptr (by rfl) (by decide) rfl rfl).2 ?_
    intro hcon
    rcases hcon with h | ⟨pm, hpm, hpmid, hple⟩
    · simp [c4Member] at h
    · have hpmid6 : pm.id = 6 := by
        have hx : some pm.id = some (6 : MsgId) := hpmid
        exact Option.some.inj hx
      have hpm2 : pm ∈ [c4Msg5, c4Msg6] := hpm
      rcases List.mem_cons.mp hpm2 with h5 | hrest
      · rw [h5] at hpmid6
        exact absurd hpmid6 (by decide)
      · have h6 := List.mem_singleton.mp hrest
        rw [h6] at hple
        exact absurd hple (by decide)

/-! ## C9 amended: group creation characterised -/

@[simp] theorem memberRow_conversation_id (c : ConvId) (u : UserId) (r : String) (t : Nat) :
    (memberRow c u r t).conversation_id = c := rfl

@[simp] theorem memberRow_user_id (c : ConvId) (u : UserId) (r : String) (t : Nat) :
    (memberRow c u r t).user_id = u := rfl

theorem any_map_eq {α β : Type} (l : List α) (f : α → β) (p : β → Bool) :
    (l.map f).any p = l.any fun a => p (f a) := by
  induction l with
  | nil => rfl
  | cons a t ih => simp [List.any_cons, ih]

/-- The unique-key check against the partially built member table: the only
rows of the fresh conversation are the owner's and the already inserted ids'. -/
theorem memberKeyTaken_base (ncid : ConvId) (now : Nat) (creatorID u : UserId)
    (pre : List ConversationMember) (hpre : ∀ m ∈ pre, m.conversation_id ≠ ncid)
    (done : List UserId) :
    memberKeyTaken (pre ++ memberRow ncid creatorID "owner" now ::
        (done.map fun i => memberRow ncid i "member" now)) ncid u =
      (creatorID == u || done.any fun i => i == u) := by
  unfold memberKeyTaken
  rw [List.any_append, List.any_cons]
  have hpre2 : (pre.any fun m => m.conversation_id == ncid && m.user_id == u) = false := by
    cases hcon : pre.any fun m => m.conversation_id == ncid && m.user_id == u
    · rfl
    · rw [List.any_eq_true] at hcon
      obtain ⟨m, hm, hmc⟩ := hcon
      simp only [Bool.and_eq_true, beq_iff_eq] at hmc
      exact absurd hmc.1 (hpre m hm)
  rw [hpre2, Bool.false_or, any_map_eq]
  simp

/-- The member-insert loop, run over an arbitrary already-inserted suffix
`done`: it succeeds with one `member` row per filtered id exactly when the
combined id list stays duplicate-free, and aborts otherwise. -/
theorem insertGroupMembers_go (creatorID : UserId) (ncid : ConvId) (now : Nat)
    (pre : List ConversationMember) (hpre : ∀ m ∈ pre, m.conversation_id ≠ ncid) :
    ∀ (ids done : List UserId), done.Nodup → creatorID ∉ done →
      (((done ++ ids.filter fun i => i != creatorID).Nodup →
        insertGroupMembers creatorID ncid now ids
          (pre ++ memberRow ncid creatorID "owner" now ::
            (done.map fun i => memberRow ncid i "member" now)) =
          .ok (pre ++ memberRow ncid creatorID "owner" now ::
            ((done ++ ids.filter fun i => i != creatorID).map fun i =>
              memberRow ncid i "member" now))) ∧
      (¬(done ++ ids.filter fun i => i != creatorID).Nodup →
        insertGroupMembers creatorID ncid now ids
          (pre ++ memberRow ncid creatorID "owner" now ::
            (done.map fun i => memberRow ncid i "member" now)) = .error ())) := by
  intro ids
  induction ids with
  | nil =>
    intro done hdn hcn
    constructor
    · intro _
      simp [insertGroupMembers]
    · intro hcon
      exact absurd (by simpa using hdn) hcon
  | cons id rest ih =>
    intro done hdn hcn
    by_cases hidc : (id == creatorID) = true
    · have hfe : (id :: rest).filter (fun i => i != creatorID) =
          rest.filter fun i => i != creatorID := by
        rw [List.filter_cons]
        simp [bne_eq_false_iff_eq, beq_iff_eq.mp hidc]
      have hstep : ∀ ms, insertGroupMembers creatorID ncid now (id :: rest) ms =
          insertGroupMembers creatorID ncid now rest ms := by
        intro ms
        simp [insertGroupMembers, hidc]
      rw [hfe, hstep]
      exact ih done hdn hcn
    · have hidf : (id != creatorID) = true := by
        cases hx : id == creatorID
        · have hbne : (id != creatorID) = !(id == creatorID) := rfl
          rw [hbne, hx]
          rfl
        · exact absurd hx hidc
      have hfe : (id :: rest).filter (fun i => i != creatorID) =
          id :: (rest.filter fun i => i != creatorID) := by
        rw [List.filter_cons, if_pos hidf]
      rw [hfe]
      have hkey := memberKeyTaken_base ncid now creatorID id pre hpre done
      by_cases hin : id ∈ done
      · have hkeyt : memberKeyTaken (pre ++ memberRow ncid creatorID "owner" now ::
            (done.map fun i => memberRow ncid i "member" now)) ncid id = true := by
          rw [hkey]
          have hany : (done.any fun i => i == id) = true :=
            List.any_eq_true.mpr ⟨id, hin, beq_self_eq_true _⟩
          rw [hany, Bool.or_true]
        have hstep : insertGroupMembers creatorID ncid now (id :: rest)
            (pre ++ memberRow ncid creatorID "owner" now ::
              (done.map fun i => memberRow ncid i "member" now)) = .error () := by
          simp [insertGroupMembers, hidc, insertMemberRow, hkeyt]
        have hnn : ¬(done ++ id :: (rest.filter fun i => i != creatorID)).Nodup := by
          intro hnd
          rw [List.nodup_append] at hnd
          exact absurd (List.mem_cons_self id _) (hnd.2.2 hin)
        exact ⟨fun hnd => absurd hnd hnn, fun _ => hstep⟩
      · have hc1 : (creatorID == id) = false := by
          cases hx : creatorID == id
          · rfl
          · exfalso
            apply hidc
            rw [beq_iff_eq] at hx
            simp [hx]
        have hc2 : (done.any fun i => i == id) = false := by
          cases hcon : done.any fun i => i == id
          · rfl
          · rw [List.any_eq_true] at hcon
            obtain ⟨j, hj, hjeq⟩ := hcon
            rw [beq_iff_eq] at hjeq
            rw [hjeq] at hj
            exact absurd hj hin
        have hkeyf : memberKeyTaken (pre ++ memberRow ncid creatorID "owner" now ::
            (done.map fun i => memberRow ncid i "member" now)) ncid id = false := by
          rw [hkey, hc1, hc2]
          rfl
        have hstep : insertGroupMembers creatorID ncid now (id :: rest)
            (pre ++ memberRow ncid creatorID "owner" now ::
              (done.map fun i => memberRow ncid i "member" now)) =
            insertGroupMembers creatorID ncid now rest
              ((pre ++ memberRow ncid creatorID "owner" now ::
                (done.map fun i => memberRow ncid i "member" now)) ++
                [memberRow ncid id "member" now]) := by
          simp [insertGroupMembers, hidc, insertMemberRow, hkeyf]
        have harr : (pre ++ memberRow ncid creatorID "owner" now ::
            (done.map fun i => memberRow ncid i "member" now)) ++
              [memberRow ncid id "member" now] =
            pre ++ memberRow ncid creatorID "owner" now ::
              ((done ++ [id]).map fun i => memberRow ncid i "member" now) := by
          simp
        have hdn2 : (done ++ [id]).Nodup := by
          rw [List.nodup_append]
          refine ⟨hdn, List.nodup_singleton id, ?_⟩
          intro a ha hb
          rw [List.mem_singleton] at hb
          subst hb
          exact hin ha
        have hcn2 : creatorID ∉ done ++ [id] := by
          intro hmem
          rcases List.mem_append.mp hmem with h | h
          · exact hcn h
          · rw [List.mem_singleton] at h
            have : (id == creatorID) = true := by rw [h]; exact beq_self_eq_true _
            exact hidc this
        have ihh := ih (done ++ [id]) hdn2 hcn2
        have hassoc : (done ++ [id]) ++ (rest.filter fun i => i != creatorID) =
            done ++ id :: (rest.filter fun i => i != creatorID) := by
          simp
        rw [hstep, harr]
        constructor
        · intro hnd
          have h1 := ihh.1 (by rw [hassoc]; exact hnd)
          rw [hassoc] at h1
          exact h1
        · intro hnn
          exact ihh.2 (by rw [hassoc]; exact hnn)

/-- C9 amended: with a fresh conversation id, `CreateGroupConversation` inserts
the group conversation, the creator as `owner` and one `member` row per
non-creator id when those ids are duplicate-free, and otherwise hits the
member unique key, rolls back and returns an error with the store unchanged. -/
theorem createGroup_spec (db : DB) (creatorID : UserId) (groupName : String)
    (memberIDs : List UserId) (ncid : ConvId) (now : Nat)
    (hfresh : ∀ m ∈ db.members, m.conversation_id ≠ ncid) :
    ((memberIDs.filter fun i => i != creatorID).Nodup →
      CreateGroupConversation db creatorID groupName memberIDs ncid now =
        ({ db with
            conversations := db.conversations ++
              [{ id := ncid, conversation_type := "group", group_name := some groupName,
                 created_at := now, updated_at := now }],
            members := db.members ++ memberRow ncid creatorID "owner" now ::
              ((memberIDs.filter fun i => i != creatorID).map fun i =>
                memberRow ncid i "member" now) },
         .ok { id := ncid, conversation_type := "group", group_name := some groupName,
               created_at := now, updated_at := now })) ∧
    (¬(memberIDs.filter fun i => i != creatorID).Nodup →
      CreateGroupConversation db creatorID groupName memberIDs ncid now =
        (db, .error .memberInsertFailed)) := by
  have hpre2 : memberKeyTaken db.members ncid creatorID = false := by
    cases hcon : memberKeyTaken db.members ncid creatorID
    · rfl
    · unfold memberKeyTaken at hcon
      rw [List.any_eq_true] at hcon
      obtain ⟨m, hm, hmc⟩ := hcon
      simp only [Bool.and_eq_true, beq_iff_eq] at hmc
      exact absurd hmc.1 (hfresh m hm)
  have howner : insertMemberRow db.members (memberRow ncid creatorID "owner" now) =
      .ok (db.members ++ [memberRow ncid creatorID "owner" now]) := by
    unfold insertMemberRow
    rw [memberRow_conversation_id, memberRow_user_id, hpre2]
    rfl
  have hgo := insertGroupMembers_go creatorID ncid now db.members hfresh memberIDs []
    List.nodup_nil (List.not_mem_nil _)
  simp only [List.map_nil, List.nil_append] at hgo
  constructor
  · intro hnd
    have h1 := hgo.1 hnd
    simp only [CreateGroupConversation, howner, h1]
  · intro hnn
    have h2 := hgo.2 hnn
    simp only [CreateGroupConversation, howner, h2]

theorem createGroup_spec_witness :
    CreateGroupConversation emptyDB 1 "team" [2, 1, 3] 10 0 =
      ({ emptyDB with
          conversations := [{ id := 10, conversation_type := "group",
                              group_name := some "team", created_at := 0,
                              updated_at := 0 }],
          members := [memberRow 10 1 "owner" 0, memberRow 10 2 "member" 0,
                      memberRow 10 3 "member" 0] },
       .ok { id := 10, conversation_type := "group", group_name := some "team",
             created_at := 0, updated_at := 0 }) := by
  have h := (createGroup_spec emptyDB 1 "team" [2, 1, 3] 10 0
    (by intro m hm; cases hm)).1 (by decide)
  simpa using h

/-! ## C3: resolve-or-create for private conversations -/

theorem any_filter_eq {α : Type} (l : List α) (p q : α → Bool) :
    (l.filter p).any q = l.any fun a => p a && q a := by
  induction l with
  | nil => rfl
  | cons a t ih =>
    rw [List.filter_cons]
    cases hp : p a
    · simp [hp, List.any_cons, ih]
    · simp [hp, List.any_cons, ih]

theorem filter_and_eq {α : Type} (l : List α) (p q : α → Bool) :
    (l.filter fun a => p a && q a) = (l.filter p).filter q := by
  induction l with
  | nil => rfl
  | cons a t ih =>
    rw [List.filter_cons, List.filter_cons]
    cases hp : p a
    · simp [hp, ih]
    · cases hq : q a
      · simp [List.filter_cons, hp, hq, ih]
      · simp [List.filter_cons, hp, hq, ih]

/-- The users of the active member rows of a conversation. -/
def activeMemberUsers (db : DB) (conversationID : ConvId) : List UserId :=
  (db.members.filter fun m =>
    m.conversation_id == conversationID && m.left_at == none).map fun m => m.user_id

/-- Spec-side reading: the active-member set of the conversation is exactly
`{a, b}`. -/
def activeSetExactly (db : DB) (conversationID : ConvId) (a b : UserId) : Bool :=
  (activeMemberUsers db conversationID).all (fun u => u == a || u == b) &&
  (activeMemberUsers db conversationID).any (fun u => u == a) &&
  (activeMemberUsers db conversationID).any (fun u => u == b)

/-- Invariant maintained by every operation of the repository: a private
conversation always keeps exactly the two distinct, never-left member rows it
was created with (member add/remove/leave are all guarded to `group`
conversations). -/
def privateWF (db : DB) : Bool :=
  db.conversations.all fun c =>
    c.conversation_type != "private" ||
    (match db.members.filter (fun m => m.conversation_id == c.id) with
     | [m1, m2] => m1.left_at == none && m2.left_at == none && m1.user_id != m2.user_id
     | _ => false)

/-- Under the private-conversation invariant the SQL join predicate coincides
with "the active-member set is exactly `{a, b}`". -/
theorem privateQuery_eq_spec (db : DB) (a b : UserId) (c : Conversation)
    (hab : a ≠ b) (hwf : privateWF db = true) (hc : c ∈ db.conversations) :
    privateQuery db a b c =
      (c.conversation_type == "private" && activeSetExactly db c.id a b) := by
  unfold privateQuery
  cases ht : c.conversation_type == "private"
  · simp
  · have hwfc : (match db.members.filter (fun m => m.conversation_id == c.id) with
        | [m1, m2] => m1.left_at == none && m2.left_at == none && m1.user_id != m2.user_id
        | _ => false) = true := by
      have hall : ((c.conversation_type != "private") ||
          (match db.members.filter (fun m => m.conversation_id == c.id) with
           | [m1, m2] => m1.left_at == none && m2.left_at == none &&
               m1.user_id != m2.user_id
           | _ => false)) = true := List.all_eq_true.mp hwf c hc
      have hne : (c.conversation_type != "private") = false := by
        have hbne : (c.conversation_type != "private") =
            !(c.conversation_type == "private") := rfl
        rw [hbne, ht]
        rfl
      rwa [hne, Bool.false_or] at hall
    cases hfil : db.members.filter (fun m => m.conversation_id == c.id) with
    | nil =>
      rw [hfil] at hwfc
      simp at hwfc
    | cons m1 tail =>
      cases tail with
      | nil =>
        rw [hfil] at hwfc
        simp at hwfc
      | cons m2 tail2 =>
        cases tail2 with
        | cons m3 tail3 =>
          rw [hfil] at hwfc
          simp at hwfc
        | nil =>
          rw [hfil] at hwfc
          simp only [Bool.and_eq_true, beq_iff_eq, bne_iff_ne] at hwfc
          obtain ⟨⟨hl1, hl2⟩, hne12⟩ := hwfc
          have hrow : ∀ u, hasMemberRow db c.id u =
              (m1.user_id == u || m2.user_id == u) := by
            intro u
            unfold hasMemberRow
            rw [← any_filter_eq db.members (fun m => m.conversation_id == c.id)
              (fun m => m.user_id == u), hfil]
            simp [List.any_cons]
          have hcount : (activeMemberCount db c.id == 2) = true := by
            unfold activeMemberCount
            rw [filter_and_eq db.members (fun m => m.conversation_id == c.id)
              (fun m => m.left_at == none), hfil]
            simp [List.filter_cons, hl1, hl2]
          have husers : activeMemberUsers db c.id = [m1.user_id, m2.user_id] := by
            unfold activeMemberUsers
            rw [filter_and_eq db.members (fun m => m.conversation_id == c.id)
              (fun m => m.left_at == none), hfil]
            simp [List.filter_cons, hl1, hl2]
          unfold activeSetExactly
          rw [husers, hrow a, hrow b, hcount]
          cases h1a : m1.user_id == a <;> cases h1b : m1.user_id == b <;>
            cases h2a : m2.user_id == a <;> cases h2b : m2.user_id == b <;>
            simp_all [beq_iff_eq]

/-- C3: under the private-conversation invariant, resolve-or-create for two
distinct users returns an existing private conversation whose active-member
set is exactly `{a, b}` with `created = false` and an untouched store when one
exists, and otherwise inserts, atomically, exactly one `private` conversation
and two `member` rows for `a` and `b`, returning `created = true`. -/
theorem getOrCreatePrivate_spec (db : DB) (a b : UserId) (ncid now : Nat)
    (hab : a ≠ b) (hwf : privateWF db = true) :
    ((∃ c ∈ db.conversations, c.conversation_type = "private" ∧
        activeSetExactly db c.id a b = true) →
      (getOrCreatePrivateConversation db a b ncid now).1 = db ∧
      ∃ c ∈ db.conversations, c.conversation_type = "private" ∧
        activeSetExactly db c.id a b = true ∧
        (getOrCreatePrivateConversation db a b ncid now).2 = .ok (c.id, false)) ∧
    ((¬∃ c ∈ db.conversations, c.conversation_type = "private" ∧
        activeSetExactly db c.id a b = true) →
      getOrCreatePrivateConversation db a b ncid now =
        ({ db with
            conversations := db.conversations ++
              [{ id := ncid, conversation_type := "private", created_at := now,
                 updated_at := now }],
            members := db.members ++
              [memberRow ncid a "member" now, memberRow ncid b "member" now] },
         .ok (ncid, true))) := by
  have hab2 : (a == b) = false := by
    cases hx : a == b
    · rfl
    · exact absurd (beq_iff_eq.mp hx) hab
  constructor
  · rintro ⟨c0, hc0, ht0, hs0⟩
    cases hfind : findPrivateConversation db a b with
    | none =>
      exfalso
      unfold findPrivateConversation at hfind
      have hall := List.find?_eq_none.mp hfind c0 hc0
      apply hall
      rw [privateQuery_eq_spec db a b c0 hab hwf hc0]
      have htb : (c0.conversation_type == "private") = true := by
        rw [ht0]
        decide
      rw [htb, hs0]
      rfl
    | some c1 =>
      have hq1 := List.find?_some hfind
      have hm1 := List.mem_of_find?_eq_some hfind
      rw [privateQuery_eq_spec db a b c1 hab hwf hm1, Bool.and_eq_true, beq_iff_eq] at hq1
      have hout : getOrCreatePrivateConversation db a b ncid now =
          (db, .ok (c1.id, false)) := by
        unfold getOrCreatePrivateConversation
        rw [hab2, hfind]
        rfl
      rw [hout]
      exact ⟨rfl, c1, hm1, hq1.1, hq1.2, rfl⟩
  · intro hniex
    have hfind : findPrivateConversation db a b = none := by
      unfold findPrivateConversation
      rw [List.find?_eq_none]
      intro c hc hq
      apply hniex
      rw [privateQuery_eq_spec db a b c hab hwf hc, Bool.and_eq_true, beq_iff_eq] at hq
      exact ⟨c, hc, hq.1, hq.2⟩
    unfold getOrCreatePrivateConversation
    rw [hab2, hfind]
    rfl

def c3DB : DB :=
  { conversations := [{ id := 1, conversation_type := "private" }],
    members := [{ conversation_id := 1, user_id := 1 }, { conversation_id := 1, user_id := 2 }] }

theorem getOrCreatePrivate_spec_witness :
    ((getOrCreatePrivateConversation c3DB 1 2 99 5).1 = c3DB ∧
      ∃ c ∈ c3DB.conversations, c.conversation_type = "private" ∧
        activeSetExactly c3DB c.id 1 2 = true ∧
        (getOrCreatePrivateConversation c3DB 1 2 99 5).2 = .ok (c.id, false)) ∧
    getOrCreatePrivateConversation emptyDB 1 2 99 5 =
      ({ emptyDB with
          conversations := [{ id := 99, conversation_type := "private", created_at := 5,
                              updated_at := 5 }],
          members := [memberRow 99 1 "member" 5, memberRow 99 2 "member" 5] },
       .ok (99, true)) := by
  constructor
  · exact (getOrCreatePrivate_spec c3DB 1 2 99 5 (by decide) (by decide)).1
      ⟨{ id := 1, conversation_type := "private" }, by decide, rfl, by decide⟩
  · have h := (getOrCreatePrivate_spec emptyDB 1 2 99 5 (by decide) (by decide)).2
      (by decide)
    simpa using h

end DinqMessage
